/-
Verification of the slot-assignment and pill-status core of the daily
planner (src/app.js) against its natural-language specification.

The embedding is shallow: the React component state (the `tasks` and
`pills` arrays) becomes explicit lists passed to pure Lean functions;
each state-updating closure of `App` (`addTask`, `updateTaskSlot`,
`updatePillStatus`) becomes a function from old state to new state,
returning alongside the new state the request it issues to the
persistent store (Dexie), when any.  JavaScript values that may be
either a string or a number (the loosely typed ids read off DOM
attributes) are modelled by the sum type `JSVal`, and the strict
equality `===` used by the source is modelled by `jsEq`.
-/
import Mathlib

set_option autoImplicit false

namespace Planner

/-- A JavaScript value as it reaches the id-comparison sites of the
source: either a string or a (non-negative integral) number. -/
inductive JSVal where
  | str : String → JSVal
  | num : Nat → JSVal
  deriving DecidableEq, Repr

/-- JavaScript strict equality `===` restricted to the values of
`JSVal`: equal only when the operands have the same type and the same
value; a string never strict-equals a number. -/
def jsEq : JSVal → JSVal → Bool
  | JSVal.str a, JSVal.str b => a == b
  | JSVal.num a, JSVal.num b => a == b
  | _, _ => false

/-- A task record as stored in the `tasks` state array and in the
Dexie table: `{ id, title, date, status, slot }`, where `slot` is
`null` (here `none`) or a time-slot label. -/
structure Task where
  id : Nat
  title : String
  date : String
  status : String
  slot : Option String
  deriving DecidableEq, Repr

/-- A pill token as stored in the `pills` state array:
`{ id, time, taken }`. -/
structure Pill where
  id : Nat
  time : String
  taken : Bool
  deriving DecidableEq, Repr

/-- The record passed to `db.tasks.add` by `addTask`. -/
structure CreateReq where
  title : String
  date : String
  status : String
  slot : Option String
  deriving DecidableEq, Repr

/-- The fixed slot catalog of `App` (`timeSlots`): 17 labels from
"08:00" to the wraparound "00:00". -/
def timeSlots : List String :=
  ["08:00", "09:00", "10:00", "11:00", "12:00", "13:00", "14:00", "15:00",
   "16:00", "17:00", "18:00", "19:00", "20:00", "21:00", "22:00", "23:00", "00:00"]

/-- `task.id.toString() === taskId`: the match test of `updateTaskSlot`.
`Nat.repr` is the decimal string `Number.prototype.toString` produces
for the non-negative integral ids Dexie assigns. -/
def matchesId (t : Task) (taskId : JSVal) : Bool :=
  jsEq (JSVal.str (Nat.repr t.id)) taskId

/-- `p.id.toString() === pillIndex`: the match test of `updatePillStatus`. -/
def matchesPill (p : Pill) (pillIndex : JSVal) : Bool :=
  jsEq (JSVal.str (Nat.repr p.id)) pillIndex

/-- `addTask(title, date)` of `App`: `db.tasks.add` yields a fresh id
(passed here explicitly as `nextId`), and the new task is appended to
the in-memory array with `status: "pending"` and `slot: null`.  The
second component is the record handed to `db.tasks.add`. -/
def addTask (tasks : List Task) (nextId : Nat) (title date : String) :
    List Task × CreateReq :=
  (tasks ++ [{ id := nextId, title := title, date := date,
               status := "pending", slot := none }],
   { title := title, date := date, status := "pending", slot := none })

/-- `updateTaskSlot(taskId, slot)` of `App`: maps over the tasks,
replacing the slot of each task whose `id.toString()` strict-equals
`taskId`; then `find`s the matching task in the updated array and, if
present, `db.tasks.put`s it.  The second component is the argument of
that `put` (`none` when no task matched and no `put` is issued). -/
def updateTaskSlot (tasks : List Task) (taskId : JSVal) (slot : Option String) :
    List Task × Option Task :=
  let updated := tasks.map (fun t => if matchesId t taskId then { t with slot := slot } else t)
  (updated, updated.find? (fun t => matchesId t taskId))

/-- `updatePillStatus(pillIndex, taken)` of `App`: maps over the pills,
replacing the `taken` flag of each pill whose `id.toString()`
strict-equals `pillIndex`.  No persistence collaborator. -/
def updatePillStatus (pills : List Pill) (pillIndex : JSVal) (taken : Bool) :
    List Pill :=
  pills.map (fun p => if matchesPill p pillIndex then { p with taken := taken } else p)

/-- The initial `pills` state of `App`:
`timeSlots.map((time, index) => ({ id: index, time, taken: false }))`. -/
def initPills (slots : List String) : List Pill :=
  slots.enum.map (fun it => { id := it.1, time := it.2, taken := false })

/-- The unscheduled pool as queried by `App` (line 313):
`tasks.filter(t => t.slot === null)`. -/
def unscheduled (tasks : List Task) : List Task :=
  tasks.filter (fun t => t.slot == none)

/-- The task list handed to `UnifiedSchedule` (line 315):
`tasks.filter(t => t.slot !== null)`. -/
def scheduled (tasks : List Task) : List Task :=
  tasks.filter (fun t => t.slot != none)

/-- The bucket of a slot label, as `UnifiedSchedule` computes it
(line 190): the scheduled tasks further filtered by
`t.slot === slot`. -/
def byBucket (tasks : List Task) (label : String) : List Task :=
  (scheduled tasks).filter (fun t => t.slot == some label)

/-- `String.prototype.trim` as the source uses it: strips leading and
trailing whitespace.  Modelled directly over the character list so that
it is executable by kernel reduction. -/
def jsTrim (s : String) : String :=
  String.mk (((s.data.dropWhile Char.isWhitespace).reverse.dropWhile
    Char.isWhitespace).reverse)

/-- The `Enter`-key branch of `UnscheduledTasks.handleKeyDown`: invokes
`addTask(newTaskText, ...)` exactly when the key is `"Enter"` and the
trimmed text is non-empty; returns the title passed to `addTask`, or
`none` when `addTask` is not invoked.  No error is produced on either
path. -/
def handleKeyDown (key newTaskText : String) : Option String :=
  if key == "Enter" && jsTrim newTaskText != "" then some newTaskText else none

/-! ### Basic lemmas about the match predicates -/

theorem matchesId_str (t : Task) (tid : String) :
    matchesId t (JSVal.str tid) = (Nat.repr t.id == tid) := rfl

theorem matchesId_num (t : Task) (n : Nat) :
    matchesId t (JSVal.num n) = false := rfl

theorem matchesPill_str (p : Pill) (s : String) :
    matchesPill p (JSVal.str s) = (Nat.repr p.id == s) := rfl

theorem matchesPill_num (p : Pill) (n : Nat) :
    matchesPill p (JSVal.num n) = false := rfl

theorem matchesId_set_slot (t : Task) (s : Option String) (v : JSVal) :
    matchesId { t with slot := s } v = matchesId t v := rfl

theorem matchesPill_set_taken (p : Pill) (b : Bool) (v : JSVal) :
    matchesPill { p with taken := b } v = matchesPill p v := rfl

theorem repr_eq_of_matches {t : Task} {tid : String}
    (h : matchesId t (JSVal.str tid) = true) : Nat.repr t.id = tid := by
  rw [matchesId_str] at h
  exact eq_of_beq h

theorem matches_of_repr_eq {t : Task} {tid : String}
    (h : Nat.repr t.id = tid) : matchesId t (JSVal.str tid) = true := by
  rw [matchesId_str, h]
  exact beq_self_eq_true tid

theorem not_matches_of_repr_ne {t : Task} {tid : String}
    (h : Nat.repr t.id ≠ tid) : matchesId t (JSVal.str tid) = false := by
  rw [matchesId_str]
  exact beq_eq_false_iff_ne.mpr h

theorem pill_repr_eq_of_matches {p : Pill} {s : String}
    (h : matchesPill p (JSVal.str s) = true) : Nat.repr p.id = s := by
  rw [matchesPill_str] at h
  exact eq_of_beq h

theorem pill_matches_of_repr_eq {p : Pill} {s : String}
    (h : Nat.repr p.id = s) : matchesPill p (JSVal.str s) = true := by
  rw [matchesPill_str, h]
  exact beq_self_eq_true s

theorem pill_not_matches_of_repr_ne {p : Pill} {s : String}
    (h : Nat.repr p.id ≠ s) : matchesPill p (JSVal.str s) = false := by
  rw [matchesPill_str]
  exact beq_eq_false_iff_ne.mpr h

theorem pill_set_taken_self {p : Pill} {b : Bool} (h : p.taken = b) :
    { p with taken := b } = p := by
  cases p with
  | mk i tm tk => cases h; rfl

/-! ### Unfolding lemmas for the state transformers -/

theorem updateTaskSlot_fst (tasks : List Task) (tid : JSVal) (s : Option String) :
    (updateTaskSlot tasks tid s).1 =
      tasks.map (fun t => if matchesId t tid then { t with slot := s } else t) := rfl

theorem updateTaskSlot_snd (tasks : List Task) (tid : JSVal) (s : Option String) :
    (updateTaskSlot tasks tid s).2 =
      (tasks.map (fun t => if matchesId t tid then { t with slot := s } else t)).find?
        (fun t => matchesId t tid) := rfl

/-- A filter of a pointwise update coincides with the filter of the
original list as soon as the update does not change the predicate on
any element and fixes every element the predicate keeps. -/
theorem filter_map_eq_filter {α : Type} (f : α → α) (p : α → Bool) :
    ∀ l : List α, (∀ t ∈ l, p (f t) = p t) → (∀ t ∈ l, p t = true → f t = t) →
      (l.map f).filter p = l.filter p := by
  intro l
  induction l with
  | nil => intro _ _; rfl
  | cons t ts ih =>
    intro h1 h2
    have hp : p (f t) = p t := h1 t (List.mem_cons_self t ts)
    have hrec := ih (fun u hu => h1 u (List.mem_cons_of_mem t hu))
      (fun u hu => h2 u (List.mem_cons_of_mem t hu))
    cases hpt : p t with
    | true =>
      have hf : f t = t := h2 t (List.mem_cons_self t ts) hpt
      simp [List.filter_cons, hf, hpt, hrec]
    | false =>
      rw [List.map_cons, List.filter_cons, List.filter_cons, hp, hpt]
      simpa using hrec

/-- The scheduled-then-bucket double filter of the source collapses to
a single filter on the slot field. -/
theorem byBucket_filter (l : List Task) (label : String) :
    byBucket l label = l.filter (fun t => t.slot == some label) := by
  unfold byBucket scheduled
  rw [List.filter_filter]
  apply List.filter_congr
  intro t _
  cases hs : t.slot with
  | none => simp
  | some s => by_cases h : s = label <;> simp [h]

theorem mem_unscheduled {tasks : List Task} {t : Task} :
    t ∈ unscheduled tasks ↔ t ∈ tasks ∧ t.slot = none := by
  simp [unscheduled, List.mem_filter]

theorem mem_byBucket {tasks : List Task} {t : Task} {label : String} :
    t ∈ byBucket tasks label ↔ t ∈ tasks ∧ t.slot = some label := by
  rw [byBucket_filter]
  simp [List.mem_filter]

/-! ### Claim theorems -/

/-- C5: `moveToSlot` is idempotent.  For every task id and valid
destination label, applying the same move twice in succession yields
the same task state, hence the same `unscheduled()` pool and the same
`byBucket(M)` contents for every label `M`, as applying it once. -/
theorem C5_moveToSlot_idempotent (tasks : List Task) (tid : JSVal) (L : String)
    (_hL : L ∈ timeSlots) :
    (updateTaskSlot (updateTaskSlot tasks tid (some L)).1 tid (some L)).1 =
      (updateTaskSlot tasks tid (some L)).1 ∧
    unscheduled (updateTaskSlot (updateTaskSlot tasks tid (some L)).1 tid (some L)).1 =
      unscheduled (updateTaskSlot tasks tid (some L)).1 ∧
    ∀ M : String,
      byBucket (updateTaskSlot (updateTaskSlot tasks tid (some L)).1 tid (some L)).1 M =
        byBucket (updateTaskSlot tasks tid (some L)).1 M := by
  have key : (updateTaskSlot (updateTaskSlot tasks tid (some L)).1 tid (some L)).1 =
      (updateTaskSlot tasks tid (some L)).1 := by
    rw [updateTaskSlot_fst, updateTaskSlot_fst, List.map_map]
    apply List.map_congr_left
    intro t _
    by_cases h : matchesId t tid
    · simp [Function.comp, h, matchesId_set_slot]
    · simp [Function.comp, h]
  exact ⟨key, by rw [key], fun M => by rw [key]⟩

/-- C5 witness: the idempotence theorem applied to a concrete state,
task id and slot label. -/
theorem C5_moveToSlot_idempotent_witness :
    (updateTaskSlot (updateTaskSlot
        [({ id := 1, title := "A", date := "d", status := "pending", slot := none } : Task)]
        (JSVal.str "1") (some "09:00")).1 (JSVal.str "1") (some "09:00")).1 =
      (updateTaskSlot
        [({ id := 1, title := "A", date := "d", status := "pending", slot := none } : Task)]
        (JSVal.str "1") (some "09:00")).1 :=
  (C5_moveToSlot_idempotent
    [({ id := 1, title := "A", date := "d", status := "pending", slot := none } : Task)]
    (JSVal.str "1") "09:00" (by decide)).1

/-- C8: after initialization there is exactly one pill token per
calendar slot, carrying that slot index and label, with `taken = false`;
and every `setTaken` call preserves the token count and each token
identity (slot index and label), mutating at most `taken` flags. -/
theorem C8_one_token_per_slot :
    (initPills timeSlots).map Pill.id = List.range timeSlots.length ∧
    (initPills timeSlots).map Pill.time = timeSlots ∧
    (initPills timeSlots).map Pill.taken = List.replicate timeSlots.length false ∧
    ∀ (pills : List Pill) (pillIndex : JSVal) (b : Bool),
      (updatePillStatus pills pillIndex b).map (fun p => (p.id, p.time)) =
        pills.map (fun p => (p.id, p.time)) := by
  refine ⟨by decide, by decide, by decide, ?_⟩
  intro pills pillIndex b
  unfold updatePillStatus
  rw [List.map_map]
  apply List.map_congr_left
  intro p _
  by_cases h : matchesPill p pillIndex <;> simp [Function.comp, h]

/-- C9: `moveToSlot` mutates only the slot field: every task keeps its
id, title, creation date and status (pointwise over the whole list),
and every task the id comparison does not match is unchanged in all
fields, the slot included. -/
theorem C9_moveToSlot_frame (tasks : List Task) (tid : JSVal) (s : Option String) :
    ((updateTaskSlot tasks tid s).1).map (fun t => (t.id, t.title, t.date, t.status)) =
      tasks.map (fun t => (t.id, t.title, t.date, t.status)) ∧
    ((updateTaskSlot tasks tid s).1).filter (fun t => !matchesId t tid) =
      tasks.filter (fun t => !matchesId t tid) := by
  constructor
  · rw [updateTaskSlot_fst, List.map_map]
    apply List.map_congr_left
    intro t _
    by_cases h : matchesId t tid <;> simp [Function.comp, h]
  · rw [updateTaskSlot_fst]
    apply filter_map_eq_filter
    · intro t _
      by_cases h : matchesId t tid <;> simp [h, matchesId_set_slot]
    · intro t _ hpt
      have hm : matchesId t tid = false := by
        cases hm : matchesId t tid
        · rfl
        · rw [hm] at hpt
          exact absurd hpt (by decide)
      simp [hm]

/-- C10: both mutation operations match their item argument with the
JavaScript strict equality `id.toString() === arg`: a string argument
matches exactly the decimal string form of the stored numeric id, and
a numeric argument never matches, so it updates nothing and issues no
persistence write. -/
theorem C10_match_is_string_strict_equality (tasks : List Task) (pills : List Pill)
    (n : Nat) (s : Option String) (b : Bool) (t : Task) (p : Pill) (tid pidx : String) :
    updateTaskSlot tasks (JSVal.num n) s = (tasks, none) ∧
    updatePillStatus pills (JSVal.num n) b = pills ∧
    matchesId t (JSVal.str tid) = (Nat.repr t.id == tid) ∧
    matchesPill p (JSVal.str pidx) = (Nat.repr p.id == pidx) := by
  refine ⟨?_, ?_, rfl, rfl⟩
  · have hmap : tasks.map
        (fun u => if matchesId u (JSVal.num n) then { u with slot := s } else u) = tasks := by
      calc tasks.map (fun u => if matchesId u (JSVal.num n) then { u with slot := s } else u)
          = tasks.map id := List.map_congr_left (fun u _ => by simp [matchesId_num])
        _ = tasks := List.map_id tasks
    have hfind : (tasks.map
        (fun u => if matchesId u (JSVal.num n) then { u with slot := s } else u)).find?
          (fun u => matchesId u (JSVal.num n)) = none := by
      rw [hmap]
      exact List.find?_eq_none.mpr (fun u _ => by simp [matchesId_num])
    rw [Prod.ext_iff]
    exact ⟨by rw [updateTaskSlot_fst, hmap], by rw [updateTaskSlot_snd, hfind]⟩
  · unfold updatePillStatus
    calc pills.map (fun q => if matchesPill q (JSVal.num n) then { q with taken := b } else q)
        = pills.map id := List.map_congr_left (fun q _ => by simp [matchesPill_num])
      _ = pills := List.map_id pills

/-- C1: a successful `moveToSlot` on a task whose id is present in
memory (the decimal id string identifying exactly one task) and a
destination label of the calendar puts the task into `byBucket(L)`,
sets its slot field to `L`, removes it from every other bucket and from
the unscheduled pool, and leaves every bucket other than the source and
destination, and the pool when the task was scheduled, unchanged. -/
theorem C1_moveToSlot_membership (tasks : List Task) (t0 : Task) (tid L : String)
    (h0 : t0 ∈ tasks) (hid : Nat.repr t0.id = tid)
    (huniq : ∀ t ∈ tasks, Nat.repr t.id = tid → t = t0)
    (_hL : L ∈ timeSlots) :
    { t0 with slot := some L } ∈ byBucket (updateTaskSlot tasks (JSVal.str tid) (some L)).1 L ∧
    (∀ t ∈ (updateTaskSlot tasks (JSVal.str tid) (some L)).1,
        Nat.repr t.id = tid → t.slot = some L) ∧
    (∀ t ∈ unscheduled (updateTaskSlot tasks (JSVal.str tid) (some L)).1,
        Nat.repr t.id ≠ tid) ∧
    (∀ M : String, M ≠ L →
        ∀ t ∈ byBucket (updateTaskSlot tasks (JSVal.str tid) (some L)).1 M,
          Nat.repr t.id ≠ tid) ∧
    (∀ M : String, M ≠ L → t0.slot ≠ some M →
        byBucket (updateTaskSlot tasks (JSVal.str tid) (some L)).1 M = byBucket tasks M) ∧
    (t0.slot ≠ none →
        unscheduled (updateTaskSlot tasks (JSVal.str tid) (some L)).1 = unscheduled tasks) := by
  have hm0 : matchesId t0 (JSVal.str tid) = true := matches_of_repr_eq hid
  refine ⟨?_, ?_, ?_, ?_, ?_, ?_⟩
  · rw [updateTaskSlot_fst]
    apply mem_byBucket.mpr
    exact ⟨List.mem_map.mpr ⟨t0, h0, by rw [if_pos hm0]⟩, rfl⟩
  · rw [updateTaskSlot_fst]
    intro t ht hrepr
    rcases List.mem_map.mp ht with ⟨u, hu, rfl⟩
    by_cases h : matchesId u (JSVal.str tid)
    · rw [if_pos h]
    · rw [if_neg h] at hrepr ⊢
      exact absurd (matches_of_repr_eq hrepr) h
  · rw [updateTaskSlot_fst]
    intro t ht
    rcases mem_unscheduled.mp ht with ⟨htm, hslot⟩
    rcases List.mem_map.mp htm with ⟨u, hu, rfl⟩
    by_cases h : matchesId u (JSVal.str tid)
    · rw [if_pos h] at hslot
      exact absurd hslot (by simp)
    · rw [if_neg h] at hslot ⊢
      intro hrepr
      exact absurd (matches_of_repr_eq hrepr) h
  · rw [updateTaskSlot_fst]
    intro M hML t ht
    rcases mem_byBucket.mp ht with ⟨htm, hslot⟩
    rcases List.mem_map.mp htm with ⟨u, hu, rfl⟩
    by_cases h : matchesId u (JSVal.str tid)
    · rw [if_pos h] at hslot
      have : some L = some M := hslot
      exact absurd (Option.some.injEq L M ▸ this) (fun hLM => hML hLM.symm)
    · rw [if_neg h] at hslot ⊢
      intro hrepr
      exact absurd (matches_of_repr_eq hrepr) h
  · intro M hML hsrc
    rw [updateTaskSlot_fst, byBucket_filter, byBucket_filter]
    apply filter_map_eq_filter
    · intro t htm
      by_cases h : matchesId t (JSVal.str tid)
      · have ht0 : t = t0 := huniq t htm (repr_eq_of_matches h)
        subst ht0
        have h1 : (({ t with slot := some L } : Task).slot == some M) = false :=
          beq_eq_false_iff_ne.mpr (by simp; exact fun hc => hML hc.symm)
        have h2 : (t.slot == some M) = false := beq_eq_false_iff_ne.mpr hsrc
        rw [if_pos h, h1, h2]
      · rw [if_neg h]
    · intro t htm hpt
      by_cases h : matchesId t (JSVal.str tid)
      · exfalso
        have ht0 : t = t0 := huniq t htm (repr_eq_of_matches h)
        subst ht0
        exact hsrc (eq_of_beq hpt)
      · rw [if_neg h]
  · intro hsrc
    rw [updateTaskSlot_fst]
    unfold unscheduled
    apply filter_map_eq_filter
    · intro t htm
      by_cases h : matchesId t (JSVal.str tid)
      · have ht0 : t = t0 := huniq t htm (repr_eq_of_matches h)
        subst ht0
        have h1 : (({ t with slot := some L } : Task).slot == none) = false := rfl
        have h2 : (t.slot == none) = false := beq_eq_false_iff_ne.mpr hsrc
        rw [if_pos h, h1, h2]
      · rw [if_neg h]
    · intro t htm hpt
      by_cases h : matchesId t (JSVal.str tid)
      · exfalso
        have ht0 : t = t0 := huniq t htm (repr_eq_of_matches h)
        subst ht0
        exact hsrc (eq_of_beq hpt)
      · rw [if_neg h]

/-- C1 witness: the membership theorem applied to a singleton state,
moving the one task to "09:00". -/
theorem C1_moveToSlot_membership_witness :
    ({ id := 1, title := "Buy milk", date := "d", status := "pending",
       slot := some "09:00" } : Task) ∈
      byBucket (updateTaskSlot
        [({ id := 1, title := "Buy milk", date := "d", status := "pending",
            slot := none } : Task)]
        (JSVal.str "1") (some "09:00")).1 "09:00" :=
  (C1_moveToSlot_membership
    [({ id := 1, title := "Buy milk", date := "d", status := "pending",
        slot := none } : Task)]
    ({ id := 1, title := "Buy milk", date := "d", status := "pending",
       slot := none } : Task)
    "1" "09:00" (by decide) (by decide) (by decide) (by decide)).1

/-- C2 counterexample: the claim fails on the invalid-slot branch.
The label "99:99" is not in the calendar, yet `moveToSlot` on a known
task with that label changes bucket membership: the task leaves the
unscheduled pool (its slot is overwritten with the invalid label), and
no error value exists anywhere in the operation. -/
theorem C2_counterexample :
    ("99:99" ∉ timeSlots) ∧
    unscheduled (updateTaskSlot
        [({ id := 1, title := "A", date := "d", status := "pending", slot := none } : Task)]
        (JSVal.str "1") (some "99:99")).1 ≠
      unscheduled
        [({ id := 1, title := "A", date := "d", status := "pending", slot := none } : Task)] := by
  decide

/-- C2 (amended): `moveToSlot` with a task id matching no in-memory
task leaves the task list unchanged and issues no persistence write,
and `setTaken` with a slot index matching no token leaves all tokens
unchanged — both silently, reporting no error value; but a destination
label absent from the calendar is not rejected: `moveToSlot` writes any
label, valid or not, into the matched task. -/
theorem C2_unknown_silent_invalid_accepted (tasks : List Task) (pills : List Pill)
    (tid pidx : String) (s : Option String) (b : Bool)
    (htid : ∀ t ∈ tasks, Nat.repr t.id ≠ tid)
    (hpidx : ∀ p ∈ pills, Nat.repr p.id ≠ pidx) :
    updateTaskSlot tasks (JSVal.str tid) s = (tasks, none) ∧
    updatePillStatus pills (JSVal.str pidx) b = pills ∧
    ∀ (tasks2 : List Task) (t0 : Task) (L : String), t0 ∈ tasks2 → Nat.repr t0.id = tid →
      { t0 with slot := some L } ∈ (updateTaskSlot tasks2 (JSVal.str tid) (some L)).1 := by
  refine ⟨?_, ?_, ?_⟩
  · have hmap : tasks.map
        (fun u => if matchesId u (JSVal.str tid) then { u with slot := s } else u) = tasks := by
      calc tasks.map (fun u => if matchesId u (JSVal.str tid) then { u with slot := s } else u)
          = tasks.map id :=
            List.map_congr_left (fun u hu => by
              rw [if_neg]
              · rfl
              · rw [not_matches_of_repr_ne (htid u hu)]
                exact Bool.false_ne_true)
        _ = tasks := List.map_id tasks
    rw [Prod.ext_iff]
    refine ⟨by rw [updateTaskSlot_fst, hmap], ?_⟩
    rw [updateTaskSlot_snd, hmap]
    exact List.find?_eq_none.mpr (fun u hu => by
      rw [not_matches_of_repr_ne (htid u hu)]
      exact Bool.false_ne_true)
  · unfold updatePillStatus
    calc pills.map (fun q => if matchesPill q (JSVal.str pidx) then { q with taken := b } else q)
        = pills.map id :=
          List.map_congr_left (fun q hq => by
            rw [if_neg]
            · rfl
            · rw [pill_not_matches_of_repr_ne (hpidx q hq)]
              exact Bool.false_ne_true)
      _ = pills := List.map_id pills
  · intro tasks2 t0 L h0 hid
    rw [updateTaskSlot_fst]
    exact List.mem_map.mpr ⟨t0, h0, by rw [if_pos (matches_of_repr_eq hid)]⟩

/-- C2 witness: the amended theorem applied to a concrete state with an
unknown task id and an out-of-range pill index. -/
theorem C2_unknown_silent_invalid_accepted_witness :
    updateTaskSlot
        [({ id := 1, title := "A", date := "d", status := "pending", slot := none } : Task)]
        (JSVal.str "2") (some "09:00") =
      ([({ id := 1, title := "A", date := "d", status := "pending", slot := none } : Task)],
        none) ∧
    updatePillStatus (initPills timeSlots) (JSVal.str "99") true = initPills timeSlots := by
  have h := C2_unknown_silent_invalid_accepted
    [({ id := 1, title := "A", date := "d", status := "pending", slot := none } : Task)]
    (initPills timeSlots) "2" "99" (some "09:00") true (by decide) (by decide)
  exact ⟨h.1, h.2.1⟩

/-- C3 counterexample: the create operation performs no title
validation.  Called with the empty title it adds a task to the
in-memory collection and issues a create request to the store, and no
InvalidInput error value exists anywhere in the operation. -/
theorem C3_counterexample :
    jsTrim "" = "" ∧
    (addTask [] 1 "" "d").1 =
      [({ id := 1, title := "", date := "d", status := "pending", slot := none } : Task)] ∧
    (addTask [] 1 "" "d").2 =
      ({ title := "", date := "d", status := "pending", slot := none } : CreateReq) :=
  ⟨rfl, rfl, rfl⟩

/-- C3 (amended): `addTask` itself validates nothing — for any title,
empty or whitespace-only included, it appends a task and issues a
create request; the guard against empty titles lives in the UI key
handler, which for whitespace-only text simply does not invoke
`addTask` and reports no error. -/
theorem C3_no_validation_guard_in_ui (tasks : List Task) (nextId : Nat)
    (title date key : String) (h : jsTrim title = "") :
    handleKeyDown key title = none ∧
    (addTask tasks nextId title date).1 =
      tasks ++ [{ id := nextId, title := title, date := date,
                  status := "pending", slot := none }] ∧
    (addTask tasks nextId title date).2 =
      { title := title, date := date, status := "pending", slot := none } := by
  refine ⟨?_, rfl, rfl⟩
  unfold handleKeyDown
  rw [h]
  simp

/-- C3 witness: the amended theorem applied to a whitespace-only title. -/
theorem C3_no_validation_guard_in_ui_witness :
    handleKeyDown "Enter" "  " = none ∧
    (addTask [] 1 "  " "d").1 =
      [({ id := 1, title := "  ", date := "d", status := "pending", slot := none } : Task)] := by
  have h := C3_no_validation_guard_in_ui [] 1 "  " "d" "Enter" (by decide)
  exact ⟨h.1, h.2.1⟩

/-- C4: for every valid (non-empty) title, a create call followed by
the unscheduled query yields exactly the previous pool plus one new
task, and that new task has `slot = none` (the Unscheduled value). -/
theorem C4_create_appears_unscheduled (tasks : List Task) (nextId : Nat)
    (title date : String) (_h : title ≠ "") :
    (addTask tasks nextId title date).1 =
      tasks ++ [{ id := nextId, title := title, date := date,
                  status := "pending", slot := none }] ∧
    unscheduled (addTask tasks nextId title date).1 =
      unscheduled tasks ++ [{ id := nextId, title := title, date := date,
                              status := "pending", slot := none }] := by
  refine ⟨rfl, ?_⟩
  unfold unscheduled addTask
  rw [List.filter_append]
  simp

/-- C4 witness: the theorem applied to a concrete title and state. -/
theorem C4_create_appears_unscheduled_witness :
    unscheduled (addTask [] 1 "Buy milk" "d").1 =
      [({ id := 1, title := "Buy milk", date := "d", status := "pending",
          slot := none } : Task)] := by
  have h := C4_create_appears_unscheduled [] 1 "Buy milk" "d" (by decide)
  exact h.2

/-- C6: whenever the task id is found in memory, `moveToSlot` issues a
`put` of the full updated task to the store — also when the task is
already at the destination slot; persistence is never short-circuited
on a matched id. -/
theorem C6_always_persists (tasks : List Task) (t0 : Task) (tid : String)
    (s : Option String) (h0 : t0 ∈ tasks) (hid : Nat.repr t0.id = tid) :
    ∃ u : Task, (updateTaskSlot tasks (JSVal.str tid) s).2 = some u ∧
      u.slot = s ∧ Nat.repr u.id = tid := by
  rw [updateTaskSlot_snd]
  have hmem : ({ t0 with slot := s } : Task) ∈ tasks.map
      (fun t => if matchesId t (JSVal.str tid) then { t with slot := s } else t) :=
    List.mem_map.mpr ⟨t0, h0, by rw [if_pos (matches_of_repr_eq hid)]⟩
  have hex : (tasks.map
      (fun t => if matchesId t (JSVal.str tid) then { t with slot := s } else t)).find?
        (fun t => matchesId t (JSVal.str tid)) |>.isSome := by
    rw [List.find?_isSome]
    exact ⟨{ t0 with slot := s }, hmem, by
      rw [matchesId_set_slot]
      exact matches_of_repr_eq hid⟩
  obtain ⟨u, hu⟩ := Option.isSome_iff_exists.mp hex
  have hpred0 := List.find?_some hu
  have hpred : matchesId u (JSVal.str tid) = true := hpred0
  have humem := List.mem_of_find?_eq_some hu
  rcases List.mem_map.mp humem with ⟨v, hv, hvu⟩
  refine ⟨u, hu, ?_, repr_eq_of_matches hpred⟩
  by_cases h : matchesId v (JSVal.str tid)
  · rw [if_pos h] at hvu
    rw [← hvu]
  · rw [if_neg h] at hvu
    rw [← hvu] at hpred
    exact absurd hpred h

/-- C6 witness: the theorem applied to a task already at the
destination slot: the `put` is still issued with the full task. -/
theorem C6_always_persists_witness :
    ∃ u : Task, (updateTaskSlot
        [({ id := 1, title := "A", date := "d", status := "pending",
            slot := some "09:00" } : Task)]
        (JSVal.str "1") (some "09:00")).2 = some u ∧
      u.slot = some "09:00" ∧ Nat.repr u.id = "1" :=
  C6_always_persists
    [({ id := 1, title := "A", date := "d", status := "pending",
        slot := some "09:00" } : Task)]
    ({ id := 1, title := "A", date := "d", status := "pending",
       slot := some "09:00" } : Task)
    "1" (some "09:00") (by decide) (by decide)

/-- C7 counterexample: the round-trip half of the claim fails on a
token that is already taken.  Starting from the reachable state where
token 3 is taken, `setTaken(3, true)` then `setTaken(3, false)` does
not return the state to the original: token 3 ends not taken. -/
theorem C7_counterexample :
    3 < timeSlots.length ∧
    updatePillStatus (updatePillStatus
        (updatePillStatus (initPills timeSlots) (JSVal.str "3") true)
        (JSVal.str "3") true) (JSVal.str "3") false ≠
      updatePillStatus (initPills timeSlots) (JSVal.str "3") true := by
  decide

/-- C7 (amended): for every slot index string whose matching tokens are
currently not taken, `setTaken(i, true)` then `setTaken(i, false)`
returns the whole token collection to its original observable state;
and `setTaken` with a value already equal to the taken flag of every
matching token is a no-op on observable state (and, having no failure
path, cannot fail). -/
theorem C7_roundtrip_from_untaken (pills : List Pill) (s : String)
    (h : ∀ p ∈ pills, Nat.repr p.id = s → p.taken = false) :
    updatePillStatus (updatePillStatus pills (JSVal.str s) true) (JSVal.str s) false = pills ∧
    ∀ b : Bool, (∀ p ∈ pills, Nat.repr p.id = s → p.taken = b) →
      updatePillStatus pills (JSVal.str s) b = pills := by
  have noop : ∀ b : Bool, ∀ l : List Pill, (∀ p ∈ l, Nat.repr p.id = s → p.taken = b) →
      updatePillStatus l (JSVal.str s) b = l := by
    intro b l hb
    unfold updatePillStatus
    calc l.map (fun q => if matchesPill q (JSVal.str s) then { q with taken := b } else q)
        = l.map id := List.map_congr_left (fun q hq => by
          by_cases hm : matchesPill q (JSVal.str s)
          · rw [if_pos hm]
            exact pill_set_taken_self (hb q hq (pill_repr_eq_of_matches hm))
          · rw [if_neg hm]
            rfl)
      _ = l := List.map_id l
  refine ⟨?_, fun b hb => noop b pills hb⟩
  unfold updatePillStatus
  rw [List.map_map]
  calc pills.map ((fun q => if matchesPill q (JSVal.str s) then { q with taken := false } else q) ∘
        (fun q => if matchesPill q (JSVal.str s) then { q with taken := true } else q))
      = pills.map id := List.map_congr_left (fun q hq => by
        simp only [Function.comp_apply, id_eq]
        by_cases hm : matchesPill q (JSVal.str s)
        · rw [if_pos hm, if_pos (by rw [matchesPill_set_taken]; exact hm)]
          exact pill_set_taken_self (h q hq (pill_repr_eq_of_matches hm))
        · rw [if_neg hm, if_neg hm])
    _ = pills := List.map_id pills

/-- C7 witness: the amended theorem applied to the freshly initialized
token collection (all not taken) at index 3. -/
theorem C7_roundtrip_from_untaken_witness :
    updatePillStatus (updatePillStatus (initPills timeSlots) (JSVal.str "3") true)
        (JSVal.str "3") false = initPills timeSlots := by
  have h := C7_roundtrip_from_untaken (initPills timeSlots) "3" (by decide)
  exact h.1

end Planner
